import Mathlib

/-!
Verification development for the Close.com documentation scraper
(`src/app.py`).  The Python source is shallowly embedded below:

* pure helpers (`is_documentation_url`, the categorization rules, the
  bundle/file naming logic) become Lean functions translated line by line
  from `CloseDocScraper`;
* the stateful crawl (`crawl_documentation` + `scrape_page`) becomes an
  explicit state-passing step function over `CrawlState`, driven by a fuel
  parameter (the Python loop runs until the frontier list empties);
* the HTTP fetch plus BeautifulSoup parse/extraction is the external
  boundary: it is abstracted as a `Fetcher` oracle
  `String → Except String PageData` (a page either parses to its title,
  cleaned text, code blocks and outbound absolute links, or fails with an
  exception message, exactly the granularity at which `scrape_page`'s
  `try/except` observes it);
* Python string primitives (`in`, `str.lower`, `str.endswith`,
  `urllib.parse.urlparse`) are re-implemented structurally over character
  lists so that every definition evaluates inside the kernel.
-/

/-! ## Python string primitives over character lists -/

/-- Does the second list start with the first one?  Helper for the
substring test. -/
def leadMatch : List Char → List Char → Bool
  | [], _ => true
  | _ :: _, [] => false
  | b :: bs, a :: as => b == a && leadMatch bs as

/-- Does the second list contain the first as a contiguous sublist? -/
def containsSub (needle : List Char) : List Char → Bool
  | [] => needle.isEmpty
  | a :: as => leadMatch needle (a :: as) || containsSub needle as

/-- Python's `needle in hay` on strings: contiguous substring test. -/
def pyIn (needle hay : String) : Bool := containsSub needle.data hay.data

/-- Python's `str.lower()` (ASCII case folding suffices for every string
this program compares). -/
def pyLower (s : String) : String := ⟨s.data.map Char.toLower⟩

/-- Python's `str.endswith(suffix)`. -/
def pyEndsWith (s suffix : String) : Bool := leadMatch suffix.data.reverse s.data.reverse

/-- Characters after the first occurrence of `needle`, if it occurs. -/
def afterSub (needle : List Char) : List Char → Option (List Char)
  | [] => if needle.isEmpty then some [] else none
  | a :: as =>
    if leadMatch needle (a :: as) then some (List.drop needle.length (a :: as))
    else afterSub needle as

/-- Separator between a URL scheme and its authority component. -/
def schemeSep : String := "://"

/-- Component model of `urllib.parse.urlparse(url).netloc`, for the
absolute URLs this crawler handles (every URL reaching the classifier is
the result of `urljoin`, hence absolute): the characters between the first
`://` and the next `/`, `?` or `#`.  A URL without `://` (e.g. a `mailto:`
or `tel:` link) has an empty netloc, as in `urlparse`. -/
def url_netloc (url : String) : String :=
  match afterSub schemeSep.data url.data with
  | none => ""
  | some rest => ⟨rest.takeWhile (fun c => !(c == '/' || c == '?' || c == '#'))⟩

/-- Component model of `urllib.parse.urlparse(url).path` for the same
absolute URL shapes: the characters after the netloc and before any `?`
query or `#` fragment. -/
def url_path (url : String) : String :=
  match afterSub schemeSep.data url.data with
  | none => ""
  | some rest =>
    ⟨(rest.dropWhile (fun c => !(c == '/' || c == '?' || c == '#'))).takeWhile
      (fun c => !(c == '?' || c == '#'))⟩

/-! ## URL Classifier (`CloseDocScraper.is_documentation_url`, src/app.py:28-37) -/

/-- Base URL of the crawl: `self.base_url = "https://developer.close.com"` (src/app.py:20). -/
def base_url : String := "https://developer.close.com"

/-- Host the classifier requires (src/app.py:33). -/
def close_domain : String := "developer.close.com"

/-- Extension blacklist of `is_documentation_url` (src/app.py:34). -/
def non_document_extensions : List String :=
  [".pdf", ".jpg", ".png", ".css", ".js", ".svg", ".ico"]

/-- External-service / non-HTTP markers of `is_documentation_url`
(src/app.py:35). -/
def external_domains : List String :=
  ["github.com", "twitter.com", "linkedin.com", "mailto:", "tel:"]

/-- Translation of `CloseDocScraper.is_documentation_url` (src/app.py:28-37):

* `is_close_domain = parsed.netloc == 'developer.close.com'`
* `is_not_file = not any(url.endswith(ext) for ext in [...])` — note the
  check runs on the **whole URL string**, not on the parsed path;
* `is_not_external = not any(domain in url for domain in [...])` — a plain
  substring test over the whole URL. -/
def is_documentation_url (url : String) : Bool :=
  let is_close_domain := url_netloc url == close_domain
  let is_not_file := !(non_document_extensions.any (fun ext => pyEndsWith url ext))
  let is_not_external := !(external_domains.any (fun domain => pyIn domain url))
  is_close_domain && is_not_file && is_not_external

/-- Concrete URL whose path ends in `.pdf` but whose full string ends in
the query, defeating the `url.endswith(ext)` test. -/
def pdf_query_url : String := "https://developer.close.com/guide.pdf?download=1"

/-- A documentation-host URL that merely mentions an external domain in
its path. -/
def mentions_github_url : String := "https://developer.close.com/docs/github.com"

/-- A documentation-host URL whose full string ends in `.pdf`. -/
def plain_pdf_url : String := "https://developer.close.com/guide.pdf"

/-- The `.pdf` entry of the extension blacklist. -/
def pdf_ext : String := ".pdf"

/-- The `github.com` entry of the external-domain list. -/
def github_domain : String := "github.com"

/-- C3 counterexample: the claim says a URL whose **path** ends in a known
non-document extension is rejected *regardless of any query string or
fragment following the path*.  The code instead tests
`url.endswith(ext)` on the full URL string, so a trailing query string
defeats the check: `https://developer.close.com/guide.pdf?download=1` has
path `/guide.pdf` yet is classified as in-scope. -/
theorem classifier_accepts_pdf_with_query :
    url_path pdf_query_url = "/guide.pdf" ∧
    pyEndsWith (url_path pdf_query_url) pdf_ext = true ∧
    is_documentation_url pdf_query_url = true := by decide

/-- C3 (amended): if the **full URL string** ends in a known non-document
extension, `is_documentation_url` returns `false`; the check does not see
through a query string or fragment appended after the path. -/
theorem classifier_rejects_extension_suffix (url ext : String)
    (hmem : ext ∈ non_document_extensions) (hend : pyEndsWith url ext = true) :
    is_documentation_url url = false := by
  have hany : (non_document_extensions.any (fun e => pyEndsWith url e)) = true :=
    List.any_eq_true.mpr ⟨ext, hmem, hend⟩
  simp [is_documentation_url, hany]

/-- Witness for `classifier_rejects_extension_suffix` at a concrete URL. -/
theorem classifier_rejects_extension_suffix_witness :
    (pdf_ext ∈ non_document_extensions ∧ pyEndsWith plain_pdf_url pdf_ext = true) ∧
    is_documentation_url plain_pdf_url = false :=
  ⟨⟨by decide, by decide⟩,
   classifier_rejects_extension_suffix plain_pdf_url pdf_ext (by decide) (by decide)⟩

/-- C10: any URL containing one of the external-service markers anywhere
in its full string is rejected, because `is_not_external` is a plain
substring test (`domain in url`) over the whole URL — even when the URL's
host is exactly the documentation host. -/
theorem classifier_rejects_external_substring (url d : String)
    (hmem : d ∈ external_domains) (hin : pyIn d url = true) :
    is_documentation_url url = false := by
  have hany : (external_domains.any (fun domain => pyIn domain url)) = true :=
    List.any_eq_true.mpr ⟨d, hmem, hin⟩
  simp [is_documentation_url, hany]

/-- Witness for `classifier_rejects_external_substring`: a URL whose host
is exactly `developer.close.com` but whose path mentions `github.com`. -/
theorem classifier_rejects_external_substring_witness :
    (url_netloc mentions_github_url = close_domain ∧
      github_domain ∈ external_domains ∧ pyIn github_domain mentions_github_url = true) ∧
    is_documentation_url mentions_github_url = false :=
  ⟨⟨by decide, by decide, by decide⟩,
   classifier_rejects_external_substring mentions_github_url github_domain
     (by decide) (by decide)⟩

/-! ## Data model of the crawl (`scrape_page` / `crawl_documentation`, src/app.py:64-163) -/

/-- One entry of a page's `code_examples` list (src/app.py:57-61):
`{'type': code.name, 'content': ..., 'language': ...}`.  The Python key
`type` is spelled `type'` here because `type` is reserved in Lean. -/
structure CodeBlock where
  type' : String
  content : String
  language : String
deriving DecidableEq

/-- One value of `self.scraped_content` (src/app.py:92-98):
`{'title', 'url', 'content', 'code_examples', 'scraped_at'}`. -/
structure PageRecord where
  title : String
  url : String
  content : String
  code_examples : List CodeBlock
  scraped_at : String
deriving DecidableEq

/-- Result of the external fetch + parse boundary for one URL
(`requests.get`, `raise_for_status`, `BeautifulSoup` and the pure
extraction helpers `clean_text` / `extract_code_examples`): the page's
extracted title, cleaned text, code blocks, and the absolute URLs of all
`<a href>` links after `urljoin` resolution (src/app.py:73-110). -/
structure PageData where
  title : String
  content : String
  code_examples : List CodeBlock
  hrefs : List String

/-- Fetch/parse oracle: `.error msg` is the exception message caught by
`scrape_page`'s `except` clause (transport error, non-2xx status raised by
`raise_for_status`, or parse failure). -/
def Fetcher := String → Except String PageData

/-- Messages written to the Streamlit progress sink, modelled as an
append-only event list (the spec's progress-sink boundary). -/
inductive Event where
  | scraping (url : String)
  | error (url : String) (msg : String)
  | debug (totalLinks docLinks : Nat)
  | progress (scraped remaining : Nat)
deriving DecidableEq

/-- Mutable state of one crawl run.  The first six fields are the
program's own state (`urls_to_visit`, `visited`, `self.scraped_urls`,
`self.scraped_content` as an insertion-ordered association list, the
progress sink, and a clock standing in for `datetime.now()`).  The last
three are ghost history fields recording, in order, every URL popped from
the frontier, every URL whose fetch was attempted, and every URL ever
appended to the frontier; they change nothing observable and exist to
state the crawl invariants. -/
structure CrawlState where
  frontier : List String
  visited : List String
  scraped_urls : List String
  scraped_content : List (String × PageRecord)
  events : List Event
  clock : Nat
  dequeued : List String
  fetched : List String
  enqueued : List String

/-- Translation of `CloseDocScraper.scrape_page` (src/app.py:64-124):
early-return when the URL was already scraped; otherwise report
`Scraping: url`, attempt the fetch; on exception report the error and
return no links; on success store the `PageRecord`, mark the URL scraped,
filter the page's links through `is_documentation_url`, and (only for the
base URL) emit the debug link-count message.  Returns the filtered links
together with the updated state. -/
def scrape_page (fetch : Fetcher) (url : String) (s : CrawlState) :
    List String × CrawlState :=
  if url ∈ s.scraped_urls then ([], s)
  else
    match fetch url with
    | Except.error msg =>
        ([], { s with events := s.events ++ [Event.scraping url, Event.error url msg],
                      fetched := s.fetched ++ [url] })
    | Except.ok page =>
        let record : PageRecord :=
          { title := page.title, url := url, content := page.content,
            code_examples := page.code_examples, scraped_at := toString s.clock }
        let links := page.hrefs.filter is_documentation_url
        let ev := if url = base_url then [Event.debug page.hrefs.length links.length] else []
        (links, { s with events := s.events ++ [Event.scraping url] ++ ev,
                         fetched := s.fetched ++ [url],
                         scraped_content := s.scraped_content ++ [(url, record)],
                         scraped_urls := s.scraped_urls ++ [url],
                         clock := s.clock + 1 })

/-- The link-enqueueing loop of `crawl_documentation` (src/app.py:151-153):
`for link in new_links: if link not in visited and link not in
urls_to_visit: urls_to_visit.append(link)`.  `vis` is the visited set,
fixed during the loop; the frontier grows.  The second component mirrors
every append into the ghost `enqueued` history. -/
def enqueue_links (vis : List String) : List String → List String → List String →
    List String × List String
  | [], front, enq => (front, enq)
  | link :: ls, front, enq =>
    if link ∈ vis ∨ link ∈ front then enqueue_links vis ls front enq
    else enqueue_links vis ls (front ++ [link]) (enq ++ [link])

/-- One iteration of the `while urls_to_visit:` loop
(src/app.py:141-163), applied when the frontier is `current :: rest`:
pop, skip if visited, else mark visited, scrape, enqueue the new links,
and write the progress message. -/
def crawl_step (fetch : Fetcher) (current : String) (rest : List String)
    (s : CrawlState) : CrawlState :=
  let s0 := { s with frontier := rest, dequeued := s.dequeued ++ [current] }
  if current ∈ s0.visited then s0
  else
    let s1 := { s0 with visited := s0.visited ++ [current] }
    let r := scrape_page fetch current s1
    let s2 := r.2
    let fe := enqueue_links s2.visited r.1 s2.frontier s2.enqueued
    let s3 := { s2 with frontier := fe.1, enqueued := fe.2 }
    { s3 with events := s3.events ++ [Event.progress s3.visited.length s3.frontier.length] }

/-- The `while urls_to_visit:` loop of `crawl_documentation`
(src/app.py:141-163), driven by fuel: the Python loop simply runs until
the frontier empties, so every theorem about a finished run carries the
hypothesis that the final frontier is empty. -/
def crawl (fetch : Fetcher) : Nat → CrawlState → CrawlState
  | 0, s => s
  | fuel + 1, s =>
    match s.frontier with
    | [] => s
    | current :: rest => crawl fetch fuel (crawl_step fetch current rest s)

/-- Initial crawl state (src/app.py:131-132): `urls_to_visit =
[start_url]; visited = set()`, with a fresh `CloseDocScraper` instance
(empty `scraped_urls` / `scraped_content`, as `main` constructs one per
run, src/app.py:375). -/
def init_state (start_url : String) : CrawlState :=
  { frontier := [start_url], visited := [], scraped_urls := [],
    scraped_content := [], events := [], clock := 0,
    dequeued := [], fetched := [], enqueued := [start_url] }

/-- Did the fetch of `u` succeed? -/
def fetchOk (fetch : Fetcher) (u : String) : Bool :=
  match fetch u with
  | Except.ok _ => true
  | Except.error _ => false

/-- Crawl-loop invariant tying the ghost histories to the program state:
the URLs ever enqueued are exactly the visited ones followed by the
pending frontier, no URL is ever enqueued twice, the visited set equals
the dequeue history (every pop is fresh), every dequeue caused exactly one
fetch attempt, `self.scraped_urls` tracks the corpus keys, and the corpus
keys are exactly the successfully fetched URLs in fetch order. -/
def CrawlInv (fetch : Fetcher) (s : CrawlState) : Prop :=
  s.enqueued = s.visited ++ s.frontier ∧
  s.enqueued.Nodup ∧
  s.visited = s.dequeued ∧
  s.fetched = s.dequeued ∧
  s.scraped_urls = s.scraped_content.map Prod.fst ∧
  s.scraped_content.map Prod.fst = s.fetched.filter (fetchOk fetch)

/-! ## Crawl-loop lemmas -/

/-- Shape of `scrape_page` on a fresh URL whose fetch raises. -/
theorem scrape_page_error_eq (fetch : Fetcher) (url : String) (s : CrawlState)
    (hns : url ∉ s.scraped_urls) {msg : String} (he : fetch url = Except.error msg) :
    scrape_page fetch url s =
      ([], { s with events := s.events ++ [Event.scraping url, Event.error url msg],
                    fetched := s.fetched ++ [url] }) := by
  simp [scrape_page, hns, he]

/-- Shape of `scrape_page` on a fresh URL whose fetch succeeds. -/
theorem scrape_page_ok_eq (fetch : Fetcher) (url : String) (s : CrawlState)
    (hns : url ∉ s.scraped_urls) {page : PageData} (he : fetch url = Except.ok page) :
    scrape_page fetch url s =
      (page.hrefs.filter is_documentation_url,
       { s with
           events := s.events ++ [Event.scraping url] ++
             (if url = base_url then
               [Event.debug page.hrefs.length (page.hrefs.filter is_documentation_url).length]
              else []),
           fetched := s.fetched ++ [url],
           scraped_content := s.scraped_content ++
             [(url, { title := page.title, url := url, content := page.content,
                      code_examples := page.code_examples, scraped_at := toString s.clock })],
           scraped_urls := s.scraped_urls ++ [url],
           clock := s.clock + 1 }) := by
  simp [scrape_page, hns, he]

/-- The enqueue loop preserves the frontier-history relation: if the URLs
enqueued so far are exactly the visited ones followed by the current
frontier, with no duplicates, the same holds after appending a batch of
links (each appended link is checked against both the visited set and the
frontier). -/
theorem enqueue_links_spec (vis : List String) :
    ∀ (links front enq : List String), enq = vis ++ front → enq.Nodup →
      (enqueue_links vis links front enq).2 = vis ++ (enqueue_links vis links front enq).1 ∧
      (enqueue_links vis links front enq).2.Nodup := by
  intro links
  induction links with
  | nil =>
    intro front enq h hn
    simpa [enqueue_links] using ⟨h, hn⟩
  | cons link ls ih =>
    intro front enq h hn
    by_cases hmem : link ∈ vis ∨ link ∈ front
    · simpa [enqueue_links, hmem] using ih front enq h hn
    · have hnv : link ∉ vis := fun hc => hmem (Or.inl hc)
      have hnf : link ∉ front := fun hc => hmem (Or.inr hc)
      have hlink : link ∉ enq := by
        rw [h]
        simp only [List.mem_append]
        rintro (hc | hc)
        · exact hnv hc
        · exact hnf hc
      have h' : enq ++ [link] = vis ++ (front ++ [link]) := by
        rw [h, List.append_assoc]
      have hn' : (enq ++ [link]).Nodup := by
        simp [List.nodup_append, hn, hlink]
      simpa [enqueue_links, hmem] using ih (front ++ [link]) (enq ++ [link]) h' hn'

/-- The invariant holds at the initial state. -/
theorem crawl_inv_init (fetch : Fetcher) (start : String) :
    CrawlInv fetch (init_state start) := by
  simp [CrawlInv, init_state]

/-- Explicit shape of one loop iteration when the popped URL is fresh and
its fetch raises: the URL is marked visited, the error is reported, no
record is stored, no links are enqueued, and the loop state moves to the
rest of the frontier. -/
theorem crawl_step_error_eq (fetch : Fetcher) (current : String) (rest : List String)
    (s : CrawlState) (msg : String)
    (hv : current ∉ s.visited) (hns : current ∉ s.scraped_urls)
    (he : fetch current = Except.error msg) :
    crawl_step fetch current rest s =
      { s with frontier := rest,
               visited := s.visited ++ [current],
               events := s.events ++ [Event.scraping current, Event.error current msg,
                 Event.progress (s.visited ++ [current]).length rest.length],
               dequeued := s.dequeued ++ [current],
               fetched := s.fetched ++ [current] } := by
  have hs := scrape_page_error_eq fetch current
    { s with frontier := rest, dequeued := s.dequeued ++ [current],
             visited := s.visited ++ [current] } hns he
  simp [crawl_step, hv, hs, enqueue_links]

/-- Explicit shape of one loop iteration when the popped URL is fresh and
its fetch succeeds. -/
theorem crawl_step_ok_eq (fetch : Fetcher) (current : String) (rest : List String)
    (s : CrawlState) (page : PageData)
    (hv : current ∉ s.visited) (hns : current ∉ s.scraped_urls)
    (he : fetch current = Except.ok page) :
    crawl_step fetch current rest s =
      { s with
          frontier := (enqueue_links (s.visited ++ [current])
            (page.hrefs.filter is_documentation_url) rest s.enqueued).1,
          visited := s.visited ++ [current],
          scraped_urls := s.scraped_urls ++ [current],
          scraped_content := s.scraped_content ++
            [(current, { title := page.title, url := current, content := page.content,
                         code_examples := page.code_examples,
                         scraped_at := toString s.clock })],
          events := s.events ++ [Event.scraping current] ++
            (if current = base_url then
              [Event.debug page.hrefs.length (page.hrefs.filter is_documentation_url).length]
             else []) ++
            [Event.progress (s.visited ++ [current]).length
              (enqueue_links (s.visited ++ [current])
                (page.hrefs.filter is_documentation_url) rest s.enqueued).1.length],
          clock := s.clock + 1,
          dequeued := s.dequeued ++ [current],
          fetched := s.fetched ++ [current],
          enqueued := (enqueue_links (s.visited ++ [current])
            (page.hrefs.filter is_documentation_url) rest s.enqueued).2 } := by
  have hs := scrape_page_ok_eq fetch current
    { s with frontier := rest, dequeued := s.dequeued ++ [current],
             visited := s.visited ++ [current] } hns he
  simp [crawl_step, hv, hs]

/-- One loop iteration preserves the crawl invariant. -/
theorem crawl_inv_step (fetch : Fetcher) (current : String) (rest : List String)
    (s : CrawlState) (hf : s.frontier = current :: rest) (h : CrawlInv fetch s) :
    CrawlInv fetch (crawl_step fetch current rest s) := by
  obtain ⟨h1, h2, h3, h4, h5, h6⟩ := h
  have h2' : (s.visited ++ current :: rest).Nodup := by rw [← hf, ← h1]; exact h2
  have hdisj := List.disjoint_of_nodup_append h2'
  have hcur : current ∉ s.visited := fun hc => hdisj hc (by simp)
  have hns : current ∉ s.scraped_urls := by
    rw [h5, h6]
    intro hc
    have hmem : current ∈ s.fetched := List.mem_of_mem_filter hc
    rw [h4, ← h3] at hmem
    exact hcur hmem
  have henq : s.enqueued = (s.visited ++ [current]) ++ rest := by
    rw [h1, hf, List.append_assoc]
    simp
  cases he : fetch current with
  | error msg =>
    rw [crawl_step_error_eq fetch current rest s msg hcur hns he]
    refine ⟨?_, ?_, ?_, ?_, ?_, ?_⟩
    · simpa using henq
    · simpa using h2
    · simp [h3]
    · simp [h4]
    · simpa using h5
    · simp [List.filter_append, fetchOk, he, h6]
  | ok page =>
    rw [crawl_step_ok_eq fetch current rest s page hcur hns he]
    have hspec := enqueue_links_spec (s.visited ++ [current])
      (page.hrefs.filter is_documentation_url) rest s.enqueued henq h2
    refine ⟨?_, ?_, ?_, ?_, ?_, ?_⟩
    · simpa using hspec.1
    · simpa using hspec.2
    · simp [h3]
    · simp [h4]
    · simp [h5]
    · simp [List.filter_append, fetchOk, he, h6]

/-- The crawl invariant holds after any number of loop iterations. -/
theorem crawl_inv_run (fetch : Fetcher) : ∀ (fuel : Nat) (s : CrawlState),
    CrawlInv fetch s → CrawlInv fetch (crawl fetch fuel s) := by
  intro fuel
  induction fuel with
  | zero => intro s h; simpa [crawl] using h
  | succ n ih =>
    intro s h
    cases hf : s.frontier with
    | nil => simpa [crawl, hf] using h
    | cons current rest =>
      simpa [crawl, hf] using ih _ (crawl_inv_step fetch current rest s hf h)

/-- Visited URLs stay visited and are never fetched again: the loop only
attempts a fetch for a popped URL that is not yet in the visited set. -/
theorem crawl_visited_not_refetched (fetch : Fetcher) : ∀ (fuel : Nat) (s : CrawlState)
    (u : String), u ∈ s.visited →
    u ∈ (crawl fetch fuel s).visited ∧
    (crawl fetch fuel s).fetched.count u = s.fetched.count u := by
  intro fuel
  induction fuel with
  | zero => intro s u hu; simp [crawl, hu]
  | succ n ih =>
    intro s u hu
    cases hf : s.frontier with
    | nil => simp [crawl, hf, hu]
    | cons current rest =>
      have hstep : u ∈ (crawl_step fetch current rest s).visited ∧
          (crawl_step fetch current rest s).fetched.count u = s.fetched.count u := by
        by_cases hv : current ∈ s.visited
        · constructor <;> simp [crawl_step, hv, hu]
        · have hne : (current == u) = false := by
            simp only [beq_eq_false_iff_ne, ne_eq]
            intro hc
            exact hv (hc ▸ hu)
          by_cases hns : current ∈ s.scraped_urls
          · constructor <;> simp [crawl_step, hv, scrape_page, hns, hu, enqueue_links]
          · cases he : fetch current with
            | error msg =>
              rw [crawl_step_error_eq fetch current rest s msg hv hns he]
              constructor
              · simp [hu]
              · simp [List.count_append, List.count_singleton, hne]
            | ok page =>
              rw [crawl_step_ok_eq fetch current rest s page hv hns he]
              constructor
              · simp [hu]
              · simp [List.count_append, List.count_singleton, hne]
      have hrec := ih (crawl_step fetch current rest s) u hstep.1
      constructor
      · simpa [crawl, hf] using hrec.1
      · rw [hstep.2] at hrec
        simpa [crawl, hf] using hrec.2

/-! ## Claim theorems about the crawl loop -/

/-- C1: in every crawl run (any fetch oracle, any number of loop
iterations from the initial state) each URL is fetched at most once: the
visited set equals — in particular contains — the list of URLs ever
dequeued, the frontier and the visited set are disjoint (the filter of
frontier entries lying in the visited set is empty), no URL is ever
enqueued twice (the enqueue history is duplicate-free), and the fetch
history is duplicate-free, so no URL's fetch is ever attempted twice. -/
theorem crawl_no_duplicate_fetch (fetch : Fetcher) (fuel : Nat) (start : String) :
    (crawl fetch fuel (init_state start)).visited =
      (crawl fetch fuel (init_state start)).dequeued ∧
    (crawl fetch fuel (init_state start)).frontier.filter
      (fun u => decide (u ∈ (crawl fetch fuel (init_state start)).visited)) = [] ∧
    (crawl fetch fuel (init_state start)).enqueued.Nodup ∧
    (crawl fetch fuel (init_state start)).fetched.Nodup := by
  obtain ⟨h1, h2, h3, h4, h5, h6⟩ :=
    crawl_inv_run fetch fuel (init_state start) (crawl_inv_init fetch start)
  refine ⟨h3, ?_, h2, ?_⟩
  · rw [List.filter_eq_nil_iff]
    intro u hu
    rw [h1] at h2
    have hdisj := List.disjoint_of_nodup_append h2
    simp only [decide_eq_true_eq]
    exact fun hv => hdisj hv hu
  · rw [h4, ← h3]
    rw [h1] at h2
    exact h2.of_append_left

/-- C2: when the popped URL is fresh and its fetch (or parse) raises, the
step stores no record, keeps the URL in the visited set, surfaces the
failure as an error event on the progress sink, hands the loop the rest of
the frontier, the crawl itself continues through this step rather than
aborting, and no later iteration ever fetches that URL again. -/
theorem crawl_failure_nonfatal (fetch : Fetcher) (s : CrawlState) (current : String)
    (rest : List String) (msg : String)
    (hv : current ∉ s.visited) (hns : current ∉ s.scraped_urls)
    (he : fetch current = Except.error msg) :
    (crawl_step fetch current rest s).scraped_content = s.scraped_content ∧
    current ∈ (crawl_step fetch current rest s).visited ∧
    (crawl_step fetch current rest s).frontier = rest ∧
    Event.error current msg ∈ (crawl_step fetch current rest s).events ∧
    (∀ fuel, s.frontier = current :: rest →
      crawl fetch (fuel + 1) s = crawl fetch fuel (crawl_step fetch current rest s)) ∧
    ∀ fuel, (crawl fetch fuel (crawl_step fetch current rest s)).fetched.count current =
      (crawl_step fetch current rest s).fetched.count current := by
  rw [crawl_step_error_eq fetch current rest s msg hv hns he]
  refine ⟨rfl, by simp, rfl, by simp, ?_, ?_⟩
  · intro fuel hf
    simp [crawl, hf, crawl_step_error_eq fetch current rest s msg hv hns he]
  · intro fuel
    exact (crawl_visited_not_refetched fetch fuel _ current (by simp)).2

/-- Error message used by the concrete failing oracles. -/
def fail_msg : String := "connection error"

/-- Oracle on which every fetch raises. -/
def failing_fetch : Fetcher := fun _ => Except.error fail_msg

/-- Witness for `crawl_failure_nonfatal`: a failing fetch of the start
URL leaves the corpus empty and the URL visited. -/
theorem crawl_failure_nonfatal_witness :
    (base_url ∉ (init_state base_url).visited ∧
     base_url ∉ (init_state base_url).scraped_urls ∧
     failing_fetch base_url = Except.error fail_msg) ∧
    (crawl_step failing_fetch base_url [] (init_state base_url)).scraped_content =
      (init_state base_url).scraped_content ∧
    base_url ∈ (crawl_step failing_fetch base_url [] (init_state base_url)).visited :=
  ⟨⟨by decide, by decide, rfl⟩,
   (crawl_failure_nonfatal failing_fetch (init_state base_url) base_url [] fail_msg
     (by decide) (by decide) rfl).1,
   (crawl_failure_nonfatal failing_fetch (init_state base_url) base_url [] fail_msg
     (by decide) (by decide) rfl).2.1⟩

/-- C4: for a run that drains its frontier, the fetch history equals, in
order, the enqueue history: the loop pops `urls_to_visit.pop(0)`, so URLs
are fetched exactly in the order they were first discovered (breadth
first), and the corpus keys — `scraped_content` insertion order — are that
same discovery order restricted to the successful fetches. -/
theorem crawl_fifo_order (fetch : Fetcher) (fuel : Nat) (start : String)
    (hdone : (crawl fetch fuel (init_state start)).frontier = []) :
    (crawl fetch fuel (init_state start)).fetched =
      (crawl fetch fuel (init_state start)).enqueued ∧
    (crawl fetch fuel (init_state start)).scraped_content.map Prod.fst =
      (crawl fetch fuel (init_state start)).enqueued.filter (fetchOk fetch) := by
  obtain ⟨h1, h2, h3, h4, h5, h6⟩ :=
    crawl_inv_run fetch fuel (init_state start) (crawl_inv_init fetch start)
  rw [hdone, List.append_nil] at h1
  constructor
  · rw [h4, ← h3, h1]
  · rw [h6, h4, ← h3, ← h1]

/-- Second page of the concrete two-page site. -/
def page_two_url : String := "https://developer.close.com/api"

/-- Concrete two-page site: the base URL links to one further
documentation page; everything else 404s. -/
def two_page_fetch : Fetcher := fun u =>
  if u = base_url then
    Except.ok { title := "Home", content := "home", code_examples := [],
                hrefs := [page_two_url] }
  else if u = page_two_url then
    Except.ok { title := "API", content := "api", code_examples := [], hrefs := [] }
  else Except.error fail_msg

/-- Witness for `crawl_fifo_order` on the two-page site. -/
theorem crawl_fifo_order_witness :
    (crawl two_page_fetch 3 (init_state base_url)).frontier = [] ∧
    (crawl two_page_fetch 3 (init_state base_url)).fetched =
      (crawl two_page_fetch 3 (init_state base_url)).enqueued :=
  ⟨by decide, (crawl_fifo_order two_page_fetch 3 base_url (by decide)).1⟩

/-- C7 (evidence for the code bug): the `while urls_to_visit:` loop of
`crawl_documentation` (src/app.py:141-163) consults no cancellation or
interruption flag anywhere — its state transition depends only on the
frontier, the visited set and the fetch results, as the definition of
`crawl_step` shows — so a run over the concrete two-page site proceeds
past the first fetched page and drains the frontier, fetching both pages.
There is no input through which a signal raised after the first page could
stop the loop while preserving the corpus; an interruption surfacing as an
exception inside the loop would instead propagate to `main`'s `except`
handler (src/app.py:492-494), which reports failure without ever calling
`create_organized_files`. -/
theorem crawl_has_no_cancellation_check :
    (crawl two_page_fetch 3 (init_state base_url)).fetched = [base_url, page_two_url] ∧
    (crawl two_page_fetch 3 (init_state base_url)).scraped_content.length = 2 := by
  decide

/-- Outcome reported by `main` (src/app.py:389-398, 492-494): either the
success banner with the scraped-page count, or the failure banner with an
exception message. -/
inductive RunOutcome where
  | success (pages : Nat)
  | failure (msg : String)
deriving DecidableEq

/-- Translation of `main`'s reporting around the crawl
(src/app.py:389-398): `crawl_documentation` is called inside `try:`;
page-level failures are swallowed inside `scrape_page`, so the crawl
returns normally and `main` unconditionally reports
`st.success(f"Scraping complete! Found {len(scraper.scraped_content)}
pages")` — there is no emptiness check, so the `failure` branch is never
produced by page-level failures. -/
def mainRun (fetch : Fetcher) (fuel : Nat) (start : String) : RunOutcome :=
  RunOutcome.success (crawl fetch fuel (init_state start)).scraped_content.length

/-- C8 counterexample: when every page fails (here: the only page), the
run ends with an empty corpus yet still reports success — `main` shows the
success banner with a count of 0 pages instead of reporting a failure. -/
theorem empty_corpus_reports_success :
    (crawl failing_fetch 1 (init_state base_url)).scraped_content = [] ∧
    mainRun failing_fetch 1 base_url = RunOutcome.success 0 := by decide

/-- C8 (amended): a crawl suffering page-level failures still completes
and reports success with the number of scraped pages; the corpus keys are
exactly the successfully fetched URLs (hence the corpus is non-empty
precisely when at least one fetch succeeded), but when every page failed
the run still reports success with a count of 0 rather than a failure. -/
theorem crawl_completion_outcome (fetch : Fetcher) (fuel : Nat) (start : String) :
    mainRun fetch fuel start =
      RunOutcome.success (crawl fetch fuel (init_state start)).scraped_content.length ∧
    (crawl fetch fuel (init_state start)).scraped_content.map Prod.fst =
      (crawl fetch fuel (init_state start)).fetched.filter (fetchOk fetch) ∧
    (crawl fetch fuel (init_state start)).scraped_content.length =
      ((crawl fetch fuel (init_state start)).fetched.filter (fetchOk fetch)).length := by
  have h := crawl_inv_run fetch fuel (init_state start) (crawl_inv_init fetch start)
  have hmap := h.2.2.2.2.2
  refine ⟨rfl, hmap, ?_⟩
  calc (crawl fetch fuel (init_state start)).scraped_content.length
      = ((crawl fetch fuel (init_state start)).scraped_content.map Prod.fst).length := by
        rw [List.length_map]
    _ = ((crawl fetch fuel (init_state start)).fetched.filter (fetchOk fetch)).length := by
        rw [hmap]

/-! ## Categorizer (`create_organized_files`, src/app.py:169-194) -/

/-- The ordered category → keyword table (src/app.py:170-176); Python
dicts preserve insertion order, so the `for category, keywords in
categories.items()` loop walks this list in order. -/
def categories : List (String × List String) :=
  [("API_Overview", ["introduction", "getting-started", "authentication", "api-clients"]),
   ("Resources", ["leads", "contacts", "opportunities", "activities", "tasks"]),
   ("Advanced_Features", ["webhooks", "custom-fields", "reporting", "bulk-actions"]),
   ("Integration_Topics", ["rate-limits", "errors", "pagination", "filtering"]),
   ("Custom_Objects", ["custom-activities", "custom-objects", "custom-fields"])]

/-- The per-category test (src/app.py:188): `any(keyword in url_lower or
keyword in title_lower for keyword in keywords)`. -/
def matches_category (url_lower title_lower : String) (keywords : List String) : Bool :=
  keywords.any (fun k => pyIn k url_lower || pyIn k title_lower)

/-- The `for category, keywords in categories.items(): ... break` search
(src/app.py:187-191): the first category whose keyword test passes against
the lowered URL or lowered title, if any. -/
def first_category (url title : String) : Option String :=
  (categories.find? (fun c => matches_category (pyLower url) (pyLower title) c.2)).map
    Prod.fst

/-- Append a record to the named bucket of the association list modelling
the `categorized_content` dict (src/app.py:189). -/
def addToBucket : List (String × List PageRecord) → String → PageRecord →
    List (String × List PageRecord)
  | [], _, _ => []
  | (name, rs) :: rest, cat, r =>
    if name = cat then (name, rs ++ [r]) :: rest
    else (name, rs) :: addToBucket rest cat r

/-- The record-classification loop of `create_organized_files`
(src/app.py:179-194) with its two accumulators: the per-category dict
(initialised to `{cat: [] for cat in categories}`) and the
`uncategorized` list. -/
def categorize_loop : List (String × PageRecord) → List (String × List PageRecord) →
    List PageRecord → List (String × List PageRecord) × List PageRecord
  | [], buckets, unc => (buckets, unc)
  | p :: rest, buckets, unc =>
    match first_category p.1 p.2.title with
    | some cat => categorize_loop rest (addToBucket buckets cat p.2) unc
    | none => categorize_loop rest buckets (unc ++ [p.2])

/-- Categorization of the whole corpus, iterated in corpus insertion
order exactly as `for url, content in self.scraped_content.items()`. -/
def categorize (corpus : List (String × PageRecord)) :
    List (String × List PageRecord) × List PageRecord :=
  categorize_loop corpus (categories.map (fun c => (c.1, []))) []

/-- Case-insensitive substring match, the spec's wording for the
categorization test. -/
def ci_substr (needle hay : String) : Bool := pyIn (pyLower needle) (pyLower hay)

/-- Categorization rule written from the spec's words, to be compared
with `first_category` from the code: the first `(bucket, keyword_set)`
pair in the fixed ordered rule list whose keyword set has a
case-insensitive substring match against the record's URL or its title;
`none` means the reserved catch-all bucket. -/
def spec_first_bucket (url title : String) : Option String :=
  (categories.find? (fun c => c.2.any (fun k => ci_substr k url || ci_substr k title))).map
    Prod.fst

/-- Two predicates that agree on a list give the same `find?`. -/
theorem find?_congr_pred {α : Type} (p q : α → Bool) :
    ∀ l : List α, (∀ a ∈ l, p a = q a) → l.find? p = l.find? q := by
  intro l
  induction l with
  | nil => intro _; rfl
  | cons a as ih =>
    intro h
    have ha := h a (by simp)
    simp only [List.find?_cons, ha]
    cases q a with
    | true => rfl
    | false => exact ih fun b hb => h b (by simp [hb])

/-- Two predicates that agree on a list give the same `any`. -/
theorem any_congr_pred {α : Type} (p q : α → Bool) :
    ∀ l : List α, (∀ a ∈ l, p a = q a) → l.any p = l.any q := by
  intro l
  induction l with
  | nil => intro _; rfl
  | cons a as ih =>
    intro h
    simp only [List.any_cons, h a (by simp), ih fun b hb => h b (by simp [hb])]

/-- Every keyword in the table is already lower-case. -/
theorem keyword_lower : ∀ c ∈ categories, ∀ k ∈ c.2, pyLower k = k := by decide

/-- The code's `first_category` is exactly the spec's case-insensitive
first-match rule: lowering the URL and title while the keywords are
literal lower-case strings is the same as lowering both sides. -/
theorem first_category_eq_spec : first_category = spec_first_bucket := by
  funext url title
  have hpt : ∀ c ∈ categories,
      matches_category (pyLower url) (pyLower title) c.2
        = c.2.any (fun k => ci_substr k url || ci_substr k title) := by
    intro c hc
    simp only [matches_category]
    apply any_congr_pred
    intro k hk
    simp only [ci_substr, keyword_lower c hc k hk]
  simp only [first_category, spec_first_bucket, find?_congr_pred _ _ categories hpt]

/-- When bucket names are distinct (as they are for the concrete category
dict), appending to the named bucket is a pointwise map. -/
theorem addToBucket_char : ∀ (B : List (String × List PageRecord)) (cat : String)
    (r : PageRecord), (B.map Prod.fst).Nodup →
    addToBucket B cat r = B.map (fun q => if q.1 = cat then (q.1, q.2 ++ [r]) else q) := by
  intro B
  induction B with
  | nil => intro cat r _; rfl
  | cons b rest ih =>
    intro cat r hn
    have hb : b.1 ∉ rest.map Prod.fst := by
      have := hn
      simp only [List.map_cons, List.nodup_cons] at this
      exact this.1
    have hrest : (rest.map Prod.fst).Nodup := by
      have := hn
      simp only [List.map_cons, List.nodup_cons] at this
      exact this.2
    cases b with
    | mk name rs =>
      by_cases hname : name = cat
      · subst hname
        have hmap : rest.map (fun q => if q.1 = name then (q.1, q.2 ++ [r]) else q) = rest := by
          have hcongr := List.map_congr_left (l := rest)
            (f := fun q => if q.1 = name then (q.1, q.2 ++ [r]) else q) (g := id) ?_
          · simpa using hcongr
          · intro q hq
            have hne : q.1 ≠ name := by
              intro hc
              exact hb (List.mem_map.mpr ⟨q, hq, hc⟩)
            simp [hne]
        simp [addToBucket, hmap]
      · simp [addToBucket, hname, ih cat r hrest]

/-- Characterization of the classification loop: starting from bucket
accumulators with distinct names, each bucket ends as its initial content
followed by the records whose first matching category is that bucket, and
the uncategorized accumulator ends with the records matching no rule, all
in corpus order. -/
theorem categorize_loop_char :
    ∀ (corpus : List (String × PageRecord)) (B : List (String × List PageRecord))
      (U : List PageRecord), (B.map Prod.fst).Nodup →
    categorize_loop corpus B U =
      (B.map (fun b => (b.1, b.2 ++
         (corpus.filter (fun p => decide (first_category p.1 p.2.title = some b.1))).map
           Prod.snd)),
       U ++ (corpus.filter (fun p => decide (first_category p.1 p.2.title = none))).map
         Prod.snd) := by
  intro corpus
  induction corpus with
  | nil =>
    intro B U hn
    simp [categorize_loop]
  | cons p rest ih =>
    intro B U hn
    cases hfc : first_category p.1 p.2.title with
    | none =>
      simp only [categorize_loop, hfc]
      rw [ih B (U ++ [p.2]) hn]
      simp [List.filter_cons, hfc, List.append_assoc]
    | some cat =>
      simp only [categorize_loop, hfc]
      rw [addToBucket_char B cat p.2 hn]
      have hfst : ((B.map (fun q => if q.1 = cat then (q.1, q.2 ++ [p.2]) else q)).map
          Prod.fst) = B.map Prod.fst := by
        rw [List.map_map]
        apply List.map_congr_left
        intro q _
        by_cases h : q.1 = cat <;> simp [h]
      rw [ih _ U (by rw [hfst]; exact hn)]
      simp only [Prod.mk.injEq]
      constructor
      · rw [List.map_map]
        apply List.map_congr_left
        intro q _
        by_cases h : q.1 = cat
        · simp [Function.comp, h, List.filter_cons, hfc, List.append_assoc]
        · simp [Function.comp, h, List.filter_cons, hfc, Ne.symm h]
      · simp [List.filter_cons, hfc]

/-- C5: categorization assigns every record of the corpus to exactly one
bucket, determined as the first rule of the fixed ordered category table
whose keyword set matches the record's URL or title case-insensitively
(`spec_first_bucket`); each bucket holds exactly — and in corpus order —
the records it is the first match for, and the reserved catch-all
(`uncategorized`) list holds exactly the records matching no rule. -/
theorem categorize_first_match_buckets (corpus : List (String × PageRecord)) :
    categorize corpus =
      (categories.map (fun c => (c.1,
         (corpus.filter (fun p => decide (spec_first_bucket p.1 p.2.title = some c.1))).map
           Prod.snd)),
       (corpus.filter (fun p => decide (spec_first_bucket p.1 p.2.title = none))).map
         Prod.snd) := by
  have hn : ((categories.map (fun c => (c.1, ([] : List PageRecord)))).map Prod.fst).Nodup := by
    decide
  rw [categorize, categorize_loop_char corpus _ [] hn]
  simp only [first_category_eq_spec, List.map_map, List.nil_append, Prod.mk.injEq]
  refine ⟨?_, trivial⟩
  apply List.map_congr_left
  intro c _
  simp [Function.comp]

/-! ## JSON backup (`json.dumps(self.scraped_content, ...)`, src/app.py:269) -/

/-- JSON value tree, the machine-parseable form in which the backup
document is rendered (`json.dumps` with `ensure_ascii=False` serializes
exactly this structure; the byte-level rendering and re-parsing are the
json library's and are faithful to the tree). -/
inductive JValue where
  | str (s : String)
  | arr (xs : List JValue)
  | obj (fields : List (String × JValue))

/-- Serialization of one `code_examples` entry, mirroring the dict built
at src/app.py:57-61. -/
def codeBlockToJson (cb : CodeBlock) : JValue :=
  JValue.obj [("type", JValue.str cb.type'), ("content", JValue.str cb.content),
              ("language", JValue.str cb.language)]

/-- Serialization of one `scraped_content` value, mirroring the dict built
at src/app.py:92-98. -/
def pageRecordToJson (r : PageRecord) : JValue :=
  JValue.obj [("title", JValue.str r.title), ("url", JValue.str r.url),
              ("content", JValue.str r.content),
              ("code_examples", JValue.arr (r.code_examples.map codeBlockToJson)),
              ("scraped_at", JValue.str r.scraped_at)]

/-- Serialization of the whole corpus: the top-level JSON object of
`complete_documentation.json`, keyed by URL in corpus insertion order. -/
def corpusToJson (corpus : List (String × PageRecord)) : JValue :=
  JValue.obj (corpus.map (fun p => (p.1, pageRecordToJson p.2)))

/-- Modelled from the spec: deserialization of one code-block object of
the backup document ("every PageRecord in the backup document, when
deserialized"); the repository itself never reads the backup back, so the
reader is written from the documented backup format. -/
def codeBlockOfJson : JValue → Option CodeBlock
  | JValue.obj [("type", JValue.str t), ("content", JValue.str c),
                ("language", JValue.str l)] => some { type' := t, content := c, language := l }
  | _ => none

/-- Modelled from the spec: deserialization of a list of code-block
objects, failing if any element is malformed. -/
def codeBlocksOfJson : List JValue → Option (List CodeBlock)
  | [] => some []
  | j :: js =>
    match codeBlockOfJson j, codeBlocksOfJson js with
    | some b, some bs => some (b :: bs)
    | _, _ => none

/-- Modelled from the spec: deserialization of one PageRecord object of
the backup document. -/
def pageRecordOfJson : JValue → Option PageRecord
  | JValue.obj [("title", JValue.str t), ("url", JValue.str u),
                ("content", JValue.str c), ("code_examples", JValue.arr es),
                ("scraped_at", JValue.str ts)] =>
      (codeBlocksOfJson es).map
        (fun bs => { title := t, url := u, content := c, code_examples := bs,
                     scraped_at := ts })
  | _ => none

/-- Modelled from the spec: deserialization of the URL-keyed entries of
the backup document. -/
def corpusEntriesOfJson : List (String × JValue) → Option (List (String × PageRecord))
  | [] => some []
  | (k, v) :: fs =>
    match pageRecordOfJson v, corpusEntriesOfJson fs with
    | some r, some rest => some ((k, r) :: rest)
    | _, _ => none

/-- Modelled from the spec: deserialization of the whole backup document
back into the URL-keyed corpus. -/
def corpusOfJson : JValue → Option (List (String × PageRecord))
  | JValue.obj fields => corpusEntriesOfJson fields
  | _ => none

/-- One code block survives the round trip. -/
theorem codeBlock_roundtrip (cb : CodeBlock) :
    codeBlockOfJson (codeBlockToJson cb) = some cb := rfl

/-- A list of code blocks survives the round trip. -/
theorem codeBlocks_roundtrip : ∀ bs : List CodeBlock,
    codeBlocksOfJson (bs.map codeBlockToJson) = some bs := by
  intro bs
  induction bs with
  | nil => rfl
  | cons b t ih => simp [codeBlocksOfJson, codeBlock_roundtrip, ih]

/-- One page record survives the round trip. -/
theorem pageRecord_roundtrip (r : PageRecord) :
    pageRecordOfJson (pageRecordToJson r) = some r := by
  simp [pageRecordToJson, pageRecordOfJson, codeBlocks_roundtrip]

/-- C6: deserializing the full-fidelity JSON backup document built from
any corpus yields, URL by URL, a record equal field-for-field to the
in-memory `PageRecord` — the backup is lossless. -/
theorem backup_roundtrip (corpus : List (String × PageRecord)) :
    corpusOfJson (corpusToJson corpus) = some corpus := by
  simp only [corpusToJson, corpusOfJson]
  induction corpus with
  | nil => rfl
  | cons p t ih => simp [corpusEntriesOfJson, pageRecord_roundtrip, ih]

/-! ## Bundle Builder (`create_organized_files`, src/app.py:196-271) -/

/-- Name of the master index document (src/app.py:246). -/
def master_index_name : String := "Tech_Close_Master_Index.md"

/-- Name of the JSON backup document (src/app.py:269). -/
def json_backup_name : String := "complete_documentation.json"

/-- Name of the catch-all document (src/app.py:223). -/
def additional_name : String := "Tech_Close_Additional.md"

/-- Name of the rendered document of one category:
`f"Tech_Close_{category}.md"` (src/app.py:199). -/
def category_file_name (cat : String) : String := "Tech_Close_" ++ cat ++ ".md"

/-- Names of the bucket documents in dict iteration order: one per
non-empty category, skipping empty ones (`if contents:`,
src/app.py:197-219). -/
def bucket_file_names (corpus : List (String × PageRecord)) : List String :=
  ((categorize corpus).1.filter (fun b => !b.2.isEmpty)).map
    (fun b => category_file_name b.1)

/-- Names in the `files` dict just before the master index is created:
the category documents, then the Additional document when the
uncategorized list is non-empty (`if uncategorized:`, src/app.py:196-243). -/
def pre_index_file_names (corpus : List (String × PageRecord)) : List String :=
  bucket_file_names corpus ++
    (if (categorize corpus).2.isEmpty then [] else [additional_name])

/-- Document names written into the master index's Documentation
Structure section (src/app.py:256-258): `for file_name in files.keys():
if file_name != "Tech_Close_Master_Index.md": ...` — at that point
`files` holds only the pre-index documents, so in particular the JSON
backup (added afterwards at src/app.py:269) is never listed. -/
def master_index_listed (corpus : List (String × PageRecord)) : List String :=
  (pre_index_file_names corpus).filter (fun n => n != master_index_name)

/-- Names of all documents of the final `files` dict, in insertion order:
the pre-index documents, the master index, then the JSON backup
(src/app.py:196-271). -/
def organized_file_names (corpus : List (String × PageRecord)) : List String :=
  pre_index_file_names corpus ++ [master_index_name, json_backup_name]

/-- Python's stable `sorted(self.scraped_content.items(), key=lambda x:
x[1]['title'])` (src/app.py:262). -/
def sorted_pages (corpus : List (String × PageRecord)) : List (String × PageRecord) :=
  corpus.mergeSort (fun a b => decide (a.2.title ≤ b.2.title))

/-- The (title, URL) lines of the master index's Complete Page Index
section, in the order written (src/app.py:260-264). -/
def master_index_entries (corpus : List (String × PageRecord)) : List (String × String) :=
  (sorted_pages corpus).map (fun p => (p.2.title, p.1))

/-- The categorizer's bucket names are the category-table names. -/
theorem categorize_bucket_names (corpus : List (String × PageRecord)) :
    (categorize corpus).1.map Prod.fst = categories.map Prod.fst := by
  have hn : ((categories.map (fun c => (c.1, ([] : List PageRecord)))).map Prod.fst).Nodup := by
    decide
  rw [categorize, categorize_loop_char corpus _ [] hn]
  simp [List.map_map, Function.comp]

/-- No pre-index document is named like the master index or the backup. -/
theorem pre_index_names_ok (corpus : List (String × PageRecord)) :
    ∀ n ∈ pre_index_file_names corpus,
      n ≠ master_index_name ∧ n ≠ json_backup_name := by
  intro n hn
  rw [pre_index_file_names, List.mem_append] at hn
  rcases hn with hn | hn
  · rw [bucket_file_names, List.mem_map] at hn
    obtain ⟨b, hb, rfl⟩ := hn
    have hbname : b.1 ∈ categories.map Prod.fst := by
      rw [← categorize_bucket_names corpus]
      exact List.mem_map_of_mem Prod.fst (List.mem_of_mem_filter hb)
    have hdec : ∀ x ∈ categories.map Prod.fst,
        category_file_name x ≠ master_index_name ∧
        category_file_name x ≠ json_backup_name := by decide
    exact hdec b.1 hbname
  · by_cases hu : (categorize corpus).2.isEmpty
    · simp [hu] at hn
    · simp only [hu, if_neg, List.mem_singleton, Bool.false_eq_true, if_false] at hn
      rw [hn]
      exact ⟨by decide, by decide⟩

/-- One-record corpus used as the concrete counterexample input. -/
def sample_record : PageRecord :=
  { title := "Welcome", url := "https://developer.close.com/x", content := "hello",
    code_examples := [], scraped_at := "0" }

/-- Corpus holding `sample_record` under its URL. -/
def sample_corpus : List (String × PageRecord) :=
  [("https://developer.close.com/x", sample_record)]

/-- C9 counterexample: the claim says the master index lists the names of
**all** generated output documents, but the JSON backup
`complete_documentation.json` is one of the generated documents and is
absent from the list the index writes (it is added to `files` only after
the index is built). -/
theorem master_index_omits_json_backup :
    json_backup_name ∈ organized_file_names sample_corpus ∧
    json_backup_name ∉ master_index_listed sample_corpus := by decide

/-- C9 (amended): the master index lists the names of the generated
bucket/Additional documents — that is, every generated document except
the master index itself and the JSON backup — and then every record
(title, URL) sorted by title: the page entries are pairwise ordered by
title and are a permutation of the corpus's (title, URL) pairs. -/
theorem master_index_contents (corpus : List (String × PageRecord)) :
    master_index_listed corpus = (organized_file_names corpus).filter
      (fun n => n != master_index_name && n != json_backup_name) ∧
    (master_index_entries corpus).Pairwise (fun a b => a.1 ≤ b.1) ∧
    (master_index_entries corpus).Perm
      (corpus.map (fun p => (p.2.title, p.1))) := by
  have hok := pre_index_names_ok corpus
  refine ⟨?_, ?_, ?_⟩
  · rw [master_index_listed, organized_file_names, List.filter_append]
    have h1 : (pre_index_file_names corpus).filter (fun n => n != master_index_name) =
        pre_index_file_names corpus := by
      rw [List.filter_eq_self]
      intro a ha
      simpa using (hok a ha).1
    have h2 : (pre_index_file_names corpus).filter
        (fun n => n != master_index_name && n != json_backup_name) =
        pre_index_file_names corpus := by
      rw [List.filter_eq_self]
      intro a ha
      simp [(hok a ha).1, (hok a ha).2]
    have h3 : ([master_index_name, json_backup_name]).filter
        (fun n => n != master_index_name && n != json_backup_name) = [] := by decide
    rw [h1, h2, h3, List.append_nil]
  · rw [master_index_entries, List.pairwise_map, sorted_pages]
    refine List.Pairwise.imp ?_ (List.sorted_mergeSort ?_ ?_ corpus)
    · intro a b h
      simpa using h
    · intro a b c hab hbc
      simp only [decide_eq_true_eq] at hab hbc ⊢
      exact le_trans hab hbc
    · intro a b
      simpa [Bool.or_eq_true, decide_eq_true_eq] using le_total a.2.title b.2.title
  · rw [master_index_entries, sorted_pages]
    exact List.Perm.map _ (List.mergeSort_perm corpus _)
